import Mathlib

/-!
Verification of the RITIS_Downloader batch client (src/RITIS_API.py) against its
natural-language specification.

Shallow embedding conventions:
* Dates are modelled as natural numbers (days since an arbitrary epoch); the
  Python code formats and parses them as strings but only ever compares and
  increments whole days.
* An HTTP response is modelled by the fields the code actually reads:
  status_code, text (the body), and the two JSON fields it extracts
  (state for the status endpoint, id for the submit endpoint).
* Python exceptions are modelled as Except.error carrying the message;
  functions that can raise return Except values.
* time.sleep calls are recorded in returned traces (lists of sleep durations
  or events); the wall clock of the polling loop is advanced exactly by the
  recorded sleeps (polls themselves are modelled as instantaneous).
-/

/-- An HTTP response, reduced to the fields read by RITIS_API.py:
response.status_code, response.text, and the JSON body fields
state (status endpoint) and id (submit endpoint). -/
structure HttpResp where
  status_code : Nat
  text : String
  state : String
  id : String
deriving DecidableEq, Repr

/-! ### _get_dates (RITIS_API.py lines 165-182)

The Python loop is
  while last_run <= yesterday: date_list.append(last_run); last_run += 1 day.
It is embedded with an explicit iteration bound of yesterday + 1 - last_run,
which is exactly the number of iterations the while loop performs, so the
bound is never hit early. -/

def get_dates_go (yesterday : Nat) : Nat → Nat → List Nat
  | 0, _ => []
  | bnd + 1, last_run =>
    if last_run ≤ yesterday then last_run :: get_dates_go yesterday bnd (last_run + 1)
    else []

/-- Embedding of RITIS_Downloader._get_dates: last_run is the date parsed from
the watermark file, yesterday is the current date minus one day. -/
def get_dates (last_run yesterday : Nat) : List Nat :=
  get_dates_go yesterday (yesterday + 1 - last_run) last_run

theorem get_dates_go_eq (yesterday : Nat) :
    ∀ bnd last_run, yesterday + 1 - last_run ≤ bnd →
      get_dates_go yesterday bnd last_run = List.range' last_run (yesterday + 1 - last_run) := by
  intro bnd
  induction bnd with
  | zero =>
    intro l h
    have h0 : yesterday + 1 - l = 0 := Nat.le_zero.mp h
    simp [get_dates_go, h0]
  | succ b ih =>
    intro l h
    by_cases hl : l ≤ yesterday
    · have hpos : yesterday + 1 - l = (yesterday - l) + 1 := by omega
      have hrec : yesterday + 1 - (l + 1) ≤ b := by omega
      rw [get_dates_go, if_pos hl, ih (l + 1) hrec, hpos, List.range'_succ]
      have : yesterday + 1 - (l + 1) = yesterday - l := by omega
      rw [this]
    · have h0 : yesterday + 1 - l = 0 := by omega
      rw [get_dates_go, if_neg hl, h0]
      rfl

theorem get_dates_eq_range' (last_run yesterday : Nat) :
    get_dates last_run yesterday = List.range' last_run (yesterday + 1 - last_run) :=
  get_dates_go_eq yesterday _ last_run (Nat.le_refl _)

/-- Claim C2 (counterexample): with the stored watermark equal to yesterday
(both equal to day 5), _get_dates returns the singleton list containing the
watermark date itself.  The claim asserts the result contains only dates
strictly greater than the watermark and is empty when watermark = yesterday;
both parts fail: the list is nonempty and its element is not greater than
the watermark. -/
theorem C2_counterexample :
    get_dates 5 5 = [5] ∧ get_dates 5 5 ≠ [] ∧ ¬ (∀ d ∈ get_dates 5 5, 5 < d) := by
  refine ⟨by decide, by decide, ?_⟩
  intro h
  exact absurd (h 5 (by decide)) (by decide)

/-- Claim C2 (amended): _get_dates returns exactly the dates d with
watermark ≤ d ≤ yesterday (the watermark date itself is included, not
excluded), in strictly ascending order; the result is empty exactly when the
watermark is greater than yesterday (for instance when it equals today). -/
theorem C2_get_dates_amended (W yesterday : Nat) :
    (∀ d, d ∈ get_dates W yesterday ↔ W ≤ d ∧ d ≤ yesterday) ∧
    List.Pairwise (· < ·) (get_dates W yesterday) ∧
    (get_dates W yesterday = [] ↔ yesterday < W) := by
  rw [get_dates_eq_range']
  refine ⟨?_, List.pairwise_lt_range' _ _ 1 (by simp), ?_⟩
  · intro d
    rw [List.mem_range'_1]
    omega
  · constructor
    · intro h
      by_contra hlt
      have : W ∈ List.range' W (yesterday + 1 - W) := by
        rw [List.mem_range'_1]
        omega
      rw [h] at this
      exact absurd this (List.not_mem_nil W)
    · intro h
      have : yesterday + 1 - W = 0 := by omega
      rw [this]
      rfl

/-! ### _submit_job (RITIS_API.py lines 76-127)

The retry loop is
  for i in range(attempts):
      sleep(10 * i**2)
      response = post(...)
      if response.status_code == 200 or i == attempts - 1: break
followed by: on status 200 return the id from the body, otherwise raise an
exception carrying the last response body.  The loop always terminates via
the break at i = attempts - 1, so the structural bound (the number of
remaining iterations) is never exhausted when attempts >= 1. -/

def submit_go (resp : Nat → HttpResp) (attempts : Nat) : Nat → Nat → List Nat × HttpResp
  | 0, i => ([10 * i ^ 2], resp i)
  | rem + 1, i =>
    if (resp i).status_code = 200 ∨ i = attempts - 1 then ([10 * i ^ 2], resp i)
    else
      let rest := submit_go resp attempts rem (i + 1)
      (10 * i ^ 2 :: rest.1, rest.2)

/-- Embedding of RITIS_Downloader._submit_job.  The first component lists the
sleep durations performed before each attempt (10 * i^2 seconds before
attempt i); the second is the job id on success (HTTP 200) or the raised
message, which carries the text of the last response. -/
def submit_job (resp : Nat → HttpResp) (attempts : Nat) : List Nat × Except String String :=
  let r := submit_go resp attempts attempts 0
  (r.1,
    if r.2.status_code = 200 then Except.ok r.2.id
    else Except.error ("Job submission failed: " ++ r.2.text))

/-- Response sequence whose first two responses are HTTP 500 and whose third
is HTTP 204 (a 2xx code that is not 200). -/
def c5resp : Nat → HttpResp :=
  fun i => if i = 2 then ⟨204, "last-body", "", "jid204"⟩ else ⟨500, "boom", "", ""⟩

/-- Claim C5 (counterexample): a submission sequence whose first two attempts
return non-2xx (500) and whose third returns 2xx (204): the claim says
submitWithRetry succeeds, but the code tests status_code == 200 exactly, so
it raises instead of succeeding. -/
theorem C5_counterexample :
    (200 ≤ 204 ∧ 204 < 300) ∧ (c5resp 0).status_code = 500 ∧ (c5resp 1).status_code = 500 ∧
    (c5resp 2).status_code = 204 ∧
    submit_job c5resp 3 = ([0, 10, 40], Except.error "Job submission failed: last-body") := by
  refine ⟨by decide, by decide, by decide, by decide, ?_⟩
  rfl

/-- Claim C5 (amended): with maxAttempts = 3, if the first two responses are
not 200 and the third is exactly 200 (rather than any 2xx code), submission
succeeds with the id of the third response after sleeping 0, 10 and 40
seconds before attempts 1, 2 and 3; and if all three responses are not 200,
it fails with an error carrying the last response body, after the same
sleeps. -/
theorem C5_submit_amended (resp : Nat → HttpResp) :
    ((resp 0).status_code ≠ 200 → (resp 1).status_code ≠ 200 → (resp 2).status_code = 200 →
      submit_job resp 3 = ([0, 10, 40], Except.ok (resp 2).id)) ∧
    ((resp 0).status_code ≠ 200 → (resp 1).status_code ≠ 200 → (resp 2).status_code ≠ 200 →
      submit_job resp 3 = ([0, 10, 40], Except.error ("Job submission failed: " ++ (resp 2).text))) := by
  constructor
  · intro h0 h1 h2
    simp [submit_job, submit_go, h0, h1, h2]
  · intro h0 h1 h2
    simp [submit_job, submit_go, h0, h1, h2]

/-- Successful third attempt (status 200). -/
def c5respOk : Nat → HttpResp :=
  fun i => if i = 2 then ⟨200, "", "", "jid-ok"⟩ else ⟨500, "boom", "", ""⟩

/-- Witness for C5_submit_amended at concrete response sequences. -/
theorem C5_submit_amended_witness :
    submit_job c5respOk 3 = ([0, 10, 40], Except.ok "jid-ok") ∧
    submit_job (fun _ => ⟨500, "boom", "", ""⟩) 3 =
      ([0, 10, 40], Except.error "Job submission failed: boom") :=
  ⟨(C5_submit_amended c5respOk).1 (by decide) (by decide) (by decide),
   (C5_submit_amended (fun _ => ⟨500, "boom", "", ""⟩)).2 (by decide) (by decide) (by decide)⟩

/-! ### _check_job_status (RITIS_API.py lines 129-140) -/

/-- Embedding of RITIS_Downloader._check_job_status: a single HTTP call with
no retry logic; 200 yields the state decoded from the body, 429 yields the
synthesized string RATE_LIMITED (the body is not consulted), anything else
raises. -/
def check_job_status (r : HttpResp) : Except String String :=
  if r.status_code = 200 then Except.ok r.state
  else if r.status_code = 429 then Except.ok "RATE_LIMITED"
  else Except.error ("Failed to get job status: " ++ r.text)

/-- Claim C8: _check_job_status maps an HTTP 200 response to the decoded job
state, an HTTP 429 response to the synthesized RATE_LIMITED state regardless
of what state the body reports, and every other status code to a raised
error; being a function of the single response, it performs no retry of its
own. -/
theorem C8_check_status (r : HttpResp) :
    (r.status_code = 200 → check_job_status r = Except.ok r.state) ∧
    (r.status_code = 429 → check_job_status r = Except.ok "RATE_LIMITED") ∧
    (r.status_code ≠ 200 → r.status_code ≠ 429 →
      check_job_status r = Except.error ("Failed to get job status: " ++ r.text)) := by
  refine ⟨fun h => ?_, fun h => ?_, fun h1 h2 => ?_⟩
  · simp [check_job_status, h]
  · simp [check_job_status, h]
  · simp [check_job_status, h1, h2]

/-- Witness for C8_check_status: evaluation at an HTTP 200, an HTTP 429 whose
body claims state RUNNING, and an HTTP 500 response. -/
theorem C8_check_status_witness :
    check_job_status ⟨200, "", "SUCCEEDED", ""⟩ = Except.ok "SUCCEEDED" ∧
    check_job_status ⟨429, "slow down", "RUNNING", ""⟩ = Except.ok "RATE_LIMITED" ∧
    check_job_status ⟨500, "oops", "", ""⟩ =
      Except.error ("Failed to get job status: " ++ "oops") :=
  ⟨(C8_check_status ⟨200, "", "SUCCEEDED", ""⟩).1 rfl,
   (C8_check_status ⟨429, "slow down", "RUNNING", ""⟩).2.1 rfl,
   (C8_check_status ⟨500, "oops", "", ""⟩).2.2 (by decide) (by decide)⟩

/-! ### _download_and_process_job_results (RITIS_API.py lines 142-163)

The code fetches the results; on HTTP 200 it creates a named temporary file
with delete=False, opens the ZIP payload, opens the entry Readings.csv inside
it and stream-copies it into the temporary file; it then runs a duckdb COPY
statement that writes the parquet file directly at its final path
download_path/<job_name>.parquet, with a finally clause that unlinks the
temporary file.  Only the duckdb COPY is covered by that finally clause: if
the ZIP has no Readings.csv entry, the KeyError escapes before the
try/finally is entered and the temporary file (created with delete=False) is
left behind.  On a non-200 response the function logs and returns None. -/

/-- Outcome of the duckdb COPY statement: success, or a raised error together
with whether an incomplete file was left at the final output path (the COPY
writes directly at the final path, so the embedding leaves this to the
environment). -/
inductive CopyOutcome
  | ok : CopyOutcome
  | fail : Bool → CopyOutcome
deriving DecidableEq, Repr

/-- Environment of one result download: the HTTP response code and body text
of the results endpoint, whether the ZIP payload contains the Readings.csv
entry, and the outcome of the duckdb COPY. -/
structure DlEnv where
  status_code : Nat
  text : String
  hasReadings : Bool
  copy : CopyOutcome
deriving DecidableEq, Repr

/-- The files touched by one result download: the scoped temporary file, a
complete parquet at the final output path, and an incomplete (ruined) file
at the final output path. -/
structure FS where
  tmpFile : Bool
  outFile : Bool
  outBad : Bool
deriving DecidableEq, Repr

/-- Observable events of the lifecycle manager, used to state ordering
properties of one batch run. -/
inductive Ev
  | slept : Nat → Ev
  | started : Nat → Ev
  | resubmitted : Ev
  | materialized : Nat → Ev
  | wmWrite : Nat → Ev
deriving DecidableEq, Repr

/-- Embedding of RITIS_Downloader._download_and_process_job_results for the
job of date d.  Returns the file state, the emitted events (materialized d
exactly when the parquet was durably written), and the Python result:
ok (some true) for return True, ok none for return None (non-200 response),
error for a raised exception. -/
def download_and_process_job_results (fs : FS) (E : DlEnv) (d : Nat) :
    FS × List Ev × Except String (Option Bool) :=
  if E.status_code = 200 then
    let fs1 : FS := { fs with tmpFile := true }
    if E.hasReadings then
      match E.copy with
      | CopyOutcome.ok =>
        ({ fs1 with tmpFile := false, outFile := true, outBad := false },
         [Ev.materialized d], Except.ok (some true))
      | CopyOutcome.fail bad =>
        ({ fs1 with tmpFile := false, outBad := bad }, [], Except.error "copy failed")
    else
      (fs1, [], Except.error "KeyError: Readings.csv")
  else (fs, [], Except.ok none)

/-- Claim C9 (counterexample): starting from a clean file state, a 200
response whose ZIP lacks the Readings.csv entry leaves the temporary file
behind (the KeyError escapes before the try/finally around the COPY), and a
failing COPY that aborts midway leaves an incomplete file visible at the
final output path (the COPY writes directly at the final path; there is no
write-to-temp-then-rename step). -/
theorem C9_counterexample :
    (download_and_process_job_results ⟨false, false, false⟩
        ⟨200, "", false, CopyOutcome.ok⟩ 7).1.tmpFile = true ∧
    (download_and_process_job_results ⟨false, false, false⟩
        ⟨200, "", true, CopyOutcome.fail true⟩ 7).1.outBad = true := by
  constructor <;> rfl

/-- Claim C9 (amended): on a 200 response, the temporary file is removed on
the paths that reach the COPY (success or COPY failure), but it is leaked
when the Readings.csv entry is missing from the archive; a COPY failure can
leave an incomplete file at the final path (no atomic-publish step exists),
and on COPY success the complete parquet is at its final path and the
function returns True. -/
theorem C9_materialize_amended (fs : FS) (E : DlEnv) (d : Nat) (h200 : E.status_code = 200) :
    (E.hasReadings = true →
      (download_and_process_job_results fs E d).1.tmpFile = false) ∧
    (E.hasReadings = false →
      (download_and_process_job_results fs E d).1.tmpFile = true) ∧
    (E.hasReadings = true → E.copy = CopyOutcome.fail true →
      (download_and_process_job_results fs E d).1.outBad = true) ∧
    (E.hasReadings = true → E.copy = CopyOutcome.ok →
      (download_and_process_job_results fs E d).1.outFile = true ∧
      (download_and_process_job_results fs E d).2.2 = Except.ok (some true)) := by
  refine ⟨fun hR => ?_, fun hR => ?_, fun hR hc => ?_, fun hR hc => ?_⟩
  · cases hc : E.copy <;> simp [download_and_process_job_results, h200, hR, hc]
  · simp [download_and_process_job_results, h200, hR]
  · simp [download_and_process_job_results, h200, hR, hc]
  · simp [download_and_process_job_results, h200, hR, hc]

/-- Witness for C9_materialize_amended at concrete download environments. -/
theorem C9_materialize_amended_witness :
    (download_and_process_job_results ⟨false, false, false⟩
        ⟨200, "", true, CopyOutcome.fail true⟩ 3).1.tmpFile = false ∧
    (download_and_process_job_results ⟨false, false, false⟩
        ⟨200, "", true, CopyOutcome.fail true⟩ 3).1.outBad = true ∧
    (download_and_process_job_results ⟨false, false, false⟩
        ⟨200, "", true, CopyOutcome.ok⟩ 3).1.outFile = true :=
  ⟨(C9_materialize_amended ⟨false, false, false⟩ ⟨200, "", true, CopyOutcome.fail true⟩ 3 rfl).1 rfl,
   (C9_materialize_amended ⟨false, false, false⟩ ⟨200, "", true, CopyOutcome.fail true⟩ 3 rfl).2.2.1 rfl rfl,
   ((C9_materialize_amended ⟨false, false, false⟩ ⟨200, "", true, CopyOutcome.ok⟩ 3 rfl).2.2.2 rfl rfl).1⟩

/-! ### daily_download (RITIS_API.py lines 184-228) and its polling loop

The per-date loop is
  start_time = now; max_time = timedelta(minutes=timeout)
  while now - start_time < max_time:
      status = check_job_status(job_id)
      if status == SUCCEEDED: (download; on True write watermark); break
      elif status in [KILLED, FAILED]:
          failed_attempts += 1
          if failed_attempts <= 1: resubmit
          else: raise Exception(f"... {status[...]} ...")   -- subscript of a str
      elif status == RATE_LIMITED: sleep(300)
      sleep(sleep_time)
  else: raise timeout
The wall clock is modelled as the sum of sleeps performed since the
submission returned (polls are instantaneous); maxTime and sleepTime are in
seconds.  The loop is embedded with a structural iteration bound; runDate
passes maxTime + 1, which can never be exhausted when sleepTime >= 1 because
every iteration advances the clock by at least sleepTime and the loop stops
as soon as the clock reaches maxTime.  The unreachable bound case is marked
by the distinguished fuelMsg outcome, which no theorem below treats as
program behaviour. -/

/-- State of the polling loop for one date: t is the wall clock in seconds
since submission, k counts status polls, failed mirrors failed_attempts,
resub counts resubmissions (for indexing submission-response sequences). -/
structure LState where
  t : Nat
  k : Nat
  failed : Nat
  resub : Nat
deriving DecidableEq, Repr

/-- Outcome of processing one date: the loop finished normally (done, via
break or via all dates processed), or an exception with the given message
propagated. -/
inductive DOutcome
  | done : DOutcome
  | err : String → DOutcome
deriving DecidableEq, Repr

/-- Message of the exception raised by the while-else clause on timeout. -/
def timeoutMsg : String := "Job timed out"

/-- Message of the TypeError raised by evaluating a string subscript of a
str value, as in status[...] where status is the state string. -/
def typeErrorMsg : String := "TypeError: string indices must be integers"

/-- Marker for the structurally unreachable iteration bound (see above). -/
def fuelMsg : String := "INTERNAL-ITERATION-BOUND"

/-- Environment of one batch run: the configured poll interval and per-date
timeout (seconds), and for each date the status responses per poll, the
submission responses per resubmission round and attempt, and the download
environment. -/
structure BatchEnv where
  sleepTime : Nat
  maxTime : Nat
  statusResp : Nat → Nat → HttpResp
  submitResp : Nat → Nat → Nat → HttpResp
  dl : Nat → DlEnv

/-- Embedding of the per-date polling loop of daily_download for date d. -/
def pollLoop (E : BatchEnv) (d : Nat) : Nat → LState → List Ev × DOutcome
  | 0, s =>
    if s.t < E.maxTime then ([], DOutcome.err fuelMsg)
    else ([], DOutcome.err timeoutMsg)
  | bnd + 1, s =>
    if s.t < E.maxTime then
      match check_job_status (E.statusResp d s.k) with
      | Except.error e => ([], DOutcome.err e)
      | Except.ok st =>
        if st = "SUCCEEDED" then
          match download_and_process_job_results ⟨false, false, false⟩ (E.dl d) d with
          | (_, evs, Except.error e) => (evs, DOutcome.err e)
          | (_, evs, Except.ok (some _)) => (evs ++ [Ev.wmWrite d], DOutcome.done)
          | (_, evs, Except.ok none) => (evs, DOutcome.done)
        else if st = "KILLED" ∨ st = "FAILED" then
          if s.failed + 1 ≤ 1 then
            match submit_job (E.submitResp d (s.resub + 1)) 3 with
            | (sls, Except.error t2) => (sls.map Ev.slept, DOutcome.err t2)
            | (sls, Except.ok _) =>
              let next := pollLoop E d bnd
                ⟨s.t + sls.sum + E.sleepTime, s.k + 1, s.failed + 1, s.resub + 1⟩
              (sls.map Ev.slept ++ Ev.resubmitted :: Ev.slept E.sleepTime :: next.1, next.2)
          else ([], DOutcome.err typeErrorMsg)
        else if st = "RATE_LIMITED" then
          let next := pollLoop E d bnd ⟨s.t + 300 + E.sleepTime, s.k + 1, s.failed, s.resub⟩
          (Ev.slept 300 :: Ev.slept E.sleepTime :: next.1, next.2)
        else
          let next := pollLoop E d bnd ⟨s.t + E.sleepTime, s.k + 1, s.failed, s.resub⟩
          (Ev.slept E.sleepTime :: next.1, next.2)
    else ([], DOutcome.err timeoutMsg)

/-- Embedding of one iteration of the date loop of daily_download: submit the
job for date d (start and end derived from d), then poll.  The truthiness
test if job_id: skips the polling loop when the returned id is the empty
string. -/
def runDate (E : BatchEnv) (d : Nat) : List Ev × DOutcome :=
  match submit_job (E.submitResp d 0) 3 with
  | (sls, Except.error t2) => (sls.map Ev.slept, DOutcome.err t2)
  | (sls, Except.ok jid) =>
    if jid = "" then (sls.map Ev.slept, DOutcome.done)
    else
      let next := pollLoop E d (E.maxTime + 1) ⟨0, 0, 0, 0⟩
      (sls.map Ev.slept ++ next.1, next.2)

/-- Embedding of the date loop of daily_download over a list of dates: a
raised exception aborts the remaining dates. -/
def runDates (E : BatchEnv) : List Nat → List Ev × Except String Unit
  | [] => ([], Except.ok ())
  | d :: rest =>
    match runDate E d with
    | (tr, DOutcome.err e) => (Ev.started d :: tr, Except.error e)
    | (tr, DOutcome.done) =>
      let next := runDates E rest
      (Ev.started d :: tr ++ next.1, next.2)

/-- Embedding of RITIS_Downloader.daily_download: compute the pending dates
from the stored watermark and yesterday, then process them in order. -/
def daily_download (E : BatchEnv) (last_run yesterday : Nat) : List Ev × Except String Unit :=
  runDates E (get_dates last_run yesterday)

/-- The sequence of values written to the watermark file during a run, in
order. -/
def wmValues (tr : List Ev) : List Nat :=
  tr.filterMap (fun e => match e with | Ev.wmWrite d => some d | _ => none)

/-- The part of a trace strictly before the first write of d to the
watermark file. -/
def beforeWrite (d : Nat) (tr : List Ev) : List Ev :=
  tr.takeWhile (fun e => ! (e == Ev.wmWrite d))

/-- Embedding of RITIS_Downloader.single_download (RITIS_API.py lines
231-245).  After a successful submission with a truthy job id, the first
loop iteration runs status = check_job_status(job_id) and then evaluates
status[...] with a string key; status is a str (the state string on HTTP
200, or the synthesized RATE_LIMITED on 429), and subscripting a str with a
string key raises TypeError, so the iteration never completes.  The function
never touches the watermark file. -/
def single_download (submitResp : Nat → HttpResp) (statusResp : Nat → HttpResp) :
    List Ev × Except String Unit :=
  match submit_job submitResp 3 with
  | (sls, Except.error t2) => (sls.map Ev.slept, Except.error t2)
  | (sls, Except.ok jid) =>
    if jid = "" then (sls.map Ev.slept, Except.ok ())
    else
      match check_job_status (statusResp 0) with
      | Except.error e => (sls.map Ev.slept, Except.error e)
      | Except.ok _ => (sls.map Ev.slept, Except.error typeErrorMsg)

/-! ### Claim C4: one resubmission budget per date, then permanent failure -/

/-- Batch environment in which every status poll reports FAILED and every
submission attempt immediately succeeds (HTTP 200, job id j). -/
def c4env : BatchEnv where
  sleepTime := 1
  maxTime := 1000
  statusResp := fun _ _ => ⟨200, "", "FAILED", ""⟩
  submitResp := fun _ _ _ => ⟨200, "", "", "j"⟩
  dl := fun _ => ⟨200, "", true, CopyOutcome.ok⟩

/-- Claim C4 (code bug): with the first poll FAILED, a successful
resubmission, and the next poll FAILED again, the loop resubmits exactly
once and then fails permanently for the date — but the exception it raises
is not the intended JobFailedError message: the raise statement evaluates
status[...] on the state string (a str), so a TypeError is raised instead.
The full trace shows the single resubmission and the sleeps around it. -/
theorem C4_second_failure :
    (runDate c4env 0).2 = DOutcome.err typeErrorMsg ∧
    (runDate c4env 0).1.count Ev.resubmitted = 1 ∧
    (runDate c4env 0).1 = [Ev.slept 0, Ev.slept 0, Ev.resubmitted, Ev.slept 1] := by
  refine ⟨rfl, rfl, rfl⟩

/-! ### Claim C7: RATE_LIMITED cooldown -/

/-- Claim C7: when a status poll returns HTTP 429 while the timeout has not
elapsed, the manager sleeps the fixed 300-second cooldown (followed by the
normal poll-interval sleep) and resumes polling with the next poll: the
resubmission budget (failed) and the submission round (resub) are unchanged,
and the clock is not reset — it continues from the same start, advanced by
the cooldown, so the cooldown wall-clock time counts against the same
per-date timeout. -/
theorem C7_rate_limited (E : BatchEnv) (d bnd : Nat) (s : LState)
    (ht : s.t < E.maxTime) (h429 : (E.statusResp d s.k).status_code = 429) :
    pollLoop E d (bnd + 1) s =
      (Ev.slept 300 :: Ev.slept E.sleepTime ::
        (pollLoop E d bnd ⟨s.t + 300 + E.sleepTime, s.k + 1, s.failed, s.resub⟩).1,
       (pollLoop E d bnd ⟨s.t + 300 + E.sleepTime, s.k + 1, s.failed, s.resub⟩).2) := by
  have hcs : check_job_status (E.statusResp d s.k) = Except.ok "RATE_LIMITED" := by
    simp [check_job_status, h429]
  simp [pollLoop, ht, hcs]

/-- Batch environment whose first status poll is rate limited (HTTP 429) and
whose second reports SUCCEEDED. -/
def c7env : BatchEnv where
  sleepTime := 60
  maxTime := 400
  statusResp := fun _ k => if k = 0 then ⟨429, "busy", "", ""⟩ else ⟨200, "", "SUCCEEDED", ""⟩
  submitResp := fun _ _ _ => ⟨200, "", "", "j"⟩
  dl := fun _ => ⟨200, "", true, CopyOutcome.ok⟩

/-- Witness for C7_rate_limited at a concrete environment and state. -/
theorem C7_rate_limited_witness :
    pollLoop c7env 0 11 ⟨0, 0, 0, 0⟩ =
      (Ev.slept 300 :: Ev.slept c7env.sleepTime ::
        (pollLoop c7env 0 10 ⟨0 + 300 + c7env.sleepTime, 0 + 1, 0, 0⟩).1,
       (pollLoop c7env 0 10 ⟨0 + 300 + c7env.sleepTime, 0 + 1, 0, 0⟩).2) :=
  C7_rate_limited c7env 0 10 ⟨0, 0, 0, 0⟩ (by decide) (by decide)

/-! ### Claim C10: the ad-hoc single-job path -/

theorem single_download_fst (subR stR : Nat → HttpResp) :
    (single_download subR stR).1 = (submit_job subR 3).1.map Ev.slept := by
  unfold single_download
  rcases h : submit_job subR 3 with ⟨sls, r⟩
  cases r with
  | error e => simp
  | ok jid =>
    by_cases hj : jid = ""
    · simp [hj]
    · cases hcs : check_job_status (stR 0) with
      | error e => simp [hj, hcs]
      | ok st => simp [hj, hcs]

/-- Claim C10: in the ad-hoc single-job path, whenever the submission
succeeds with a truthy job id and the status check returns a state string
(HTTP 200, or HTTP 429 synthesizing RATE_LIMITED), the first poll iteration
evaluates a string subscript of that str and raises TypeError — so the path
never completes a poll iteration normally and never reaches the SUCCEEDED
download branch; moreover (unconditionally, for every environment) its trace
contains no watermark write and no materialization. -/
theorem C10_single_download (subR stR : Nat → HttpResp) (sls : List Nat) (jid : String)
    (hsub : submit_job subR 3 = (sls, Except.ok jid)) (hjid : jid ≠ "")
    (hcode : (stR 0).status_code = 200 ∨ (stR 0).status_code = 429) :
    single_download subR stR = (sls.map Ev.slept, Except.error typeErrorMsg) ∧
    ∀ (s2 t2 : Nat → HttpResp) (d : Nat),
      Ev.wmWrite d ∉ (single_download s2 t2).1 ∧
      Ev.materialized d ∉ (single_download s2 t2).1 := by
  constructor
  · have hst : ∃ st, check_job_status (stR 0) = Except.ok st := by
      rcases hcode with h | h
      · exact ⟨(stR 0).state, by simp [check_job_status, h]⟩
      · refine ⟨"RATE_LIMITED", ?_⟩
        simp [check_job_status, h]
    obtain ⟨st, hst⟩ := hst
    unfold single_download
    rw [hsub]
    simp [hjid, hst]
  · intro s2 t2 d
    rw [single_download_fst]
    constructor <;> simp [List.mem_map]

/-- Witness for C10_single_download: a submission answered with HTTP 200 and
job id j, and a status check answered with HTTP 200 and state SUCCEEDED —
even then the ad-hoc path raises TypeError on the first iteration. -/
theorem C10_single_download_witness :
    single_download (fun _ => ⟨200, "", "", "j"⟩) (fun _ => ⟨200, "", "SUCCEEDED", ""⟩) =
      ([Ev.slept 0], Except.error typeErrorMsg) ∧
    Ev.wmWrite 4 ∉ (single_download (fun _ => ⟨500, "x", "", ""⟩) (fun _ => ⟨200, "", "", ""⟩)).1 :=
  ⟨(C10_single_download (fun _ => ⟨200, "", "", "j"⟩) (fun _ => ⟨200, "", "SUCCEEDED", ""⟩)
      [0] "j" rfl (by decide) (Or.inl rfl)).1,
   ((C10_single_download (fun _ => ⟨200, "", "", "j"⟩) (fun _ => ⟨200, "", "SUCCEEDED", ""⟩)
      [0] "j" rfl (by decide) (Or.inl rfl)).2
      (fun _ => ⟨500, "x", "", ""⟩) (fun _ => ⟨200, "", "", ""⟩) 4).1⟩

/-! ### Claim C6: wall-clock timeout -/

theorem pollLoop_timeout (E : BatchEnv) (d : Nat) (hsl : 1 ≤ E.sleepTime)
    (hst : ∀ k, ((E.statusResp d k).status_code = 200 ∧
        (E.statusResp d k).state ∉ (["SUCCEEDED", "KILLED", "FAILED"] : List String)) ∨
      (E.statusResp d k).status_code = 429) :
    ∀ bnd s, E.maxTime ≤ s.t + bnd → (pollLoop E d bnd s).2 = DOutcome.err timeoutMsg := by
  intro bnd
  induction bnd with
  | zero =>
    intro s h
    have ht : ¬ s.t < E.maxTime := by omega
    simp [pollLoop, ht]
  | succ b ih =>
    intro s h
    by_cases ht : s.t < E.maxTime
    · rcases hst s.k with ⟨h200, hmem⟩ | h429
      · have h1 : (E.statusResp d s.k).state ≠ "SUCCEEDED" := by
          intro heq
          exact hmem (by rw [heq]; simp)
        have h2k : (E.statusResp d s.k).state ≠ "KILLED" := by
          intro heq
          exact hmem (by rw [heq]; simp)
        have h2f : (E.statusResp d s.k).state ≠ "FAILED" := by
          intro heq
          exact hmem (by rw [heq]; simp)
        have hcs : check_job_status (E.statusResp d s.k) =
            Except.ok (E.statusResp d s.k).state := by
          simp [check_job_status, h200]
        by_cases hrl : (E.statusResp d s.k).state = "RATE_LIMITED"
        · have hrec := ih ⟨s.t + 300 + E.sleepTime, s.k + 1, s.failed, s.resub⟩ (by simp; omega)
          simp [pollLoop, ht, hcs, h1, h2k, h2f, hrl, hrec]
        · have hrec := ih ⟨s.t + E.sleepTime, s.k + 1, s.failed, s.resub⟩ (by simp; omega)
          simp [pollLoop, ht, hcs, h1, h2k, h2f, hrl, hrec]
      · have hcs : check_job_status (E.statusResp d s.k) = Except.ok "RATE_LIMITED" := by
          simp [check_job_status, h429]
        have hrec := ih ⟨s.t + 300 + E.sleepTime, s.k + 1, s.failed, s.resub⟩ (by simp; omega)
        simp [pollLoop, ht, hcs, hrec]
    · simp [pollLoop, ht]

/-- Claim C6: if the job is submitted successfully but no poll ever returns a
terminal state (every status response is either HTTP 200 with a
non-terminal state, or HTTP 429), the loop keeps polling until the wall
clock — measured from submission and advanced by every sleep, including
rate-limit cooldowns, not by any count of polls — reaches the per-date
budget maxTime, and then the while-else clause raises the timeout error,
which stops the loop for that date. -/
theorem C6_timeout (E : BatchEnv) (d : Nat) (sls : List Nat) (jid : String)
    (hsl : 1 ≤ E.sleepTime)
    (hsub : submit_job (E.submitResp d 0) 3 = (sls, Except.ok jid)) (hjid : jid ≠ "")
    (hst : ∀ k, ((E.statusResp d k).status_code = 200 ∧
        (E.statusResp d k).state ∉ (["SUCCEEDED", "KILLED", "FAILED"] : List String)) ∨
      (E.statusResp d k).status_code = 429) :
    (runDate E d).2 = DOutcome.err timeoutMsg := by
  unfold runDate
  rw [hsub]
  simp only [hjid, if_neg (by exact hjid)]
  simpa using pollLoop_timeout E d hsl hst (E.maxTime + 1) ⟨0, 0, 0, 0⟩ (by simp)

/-- Batch environment in which every poll reports a RUNNING job. -/
def c6env : BatchEnv where
  sleepTime := 60
  maxTime := 120
  statusResp := fun _ _ => ⟨200, "", "RUNNING", ""⟩
  submitResp := fun _ _ _ => ⟨200, "", "", "j"⟩
  dl := fun _ => ⟨200, "", true, CopyOutcome.ok⟩

/-- Witness for C6_timeout: a job that stays RUNNING forever times out. -/
theorem C6_timeout_witness : (runDate c6env 5).2 = DOutcome.err timeoutMsg :=
  C6_timeout c6env 5 [0] "j" (by decide) rfl (by decide)
    (fun _ => Or.inl ⟨rfl,
      (by decide : ("RUNNING" : String) ∉ (["SUCCEEDED", "KILLED", "FAILED"] : List String))⟩)

/-! ### Claim C3: failure after SUCCEEDED -/

/-- Batch environment for two pending dates (0 and 1) in which every job
immediately reaches SUCCEEDED, the results download for date 0 answers
HTTP 500, and the download for date 1 succeeds. -/
def c3env : BatchEnv where
  sleepTime := 1
  maxTime := 10
  statusResp := fun _ _ => ⟨200, "", "SUCCEEDED", ""⟩
  submitResp := fun _ _ _ => ⟨200, "", "", "j"⟩
  dl := fun d => if d = 0 then ⟨500, "boom", true, CopyOutcome.ok⟩
                 else ⟨200, "", true, CopyOutcome.ok⟩

/-- Claim C3 (counterexample): with watermark 0 and yesterday 1 (pending
dates 0 and 1), the job for date 0 reaches SUCCEEDED and its result
download then fails with HTTP 500 — yet the batch does not abort and no
error is re-raised: _download_and_process_job_results returns None, the
watermark is left alone for date 0, and the loop silently proceeds to date
1 (its started event is in the trace), completes it and returns normally. -/
theorem C3_counterexample :
    daily_download c3env 0 1 =
      ([Ev.started 0, Ev.slept 0, Ev.started 1, Ev.slept 0, Ev.materialized 1, Ev.wmWrite 1],
       Except.ok ()) ∧
    (c3env.statusResp 0 0).state = "SUCCEEDED" ∧ (c3env.dl 0).status_code = 500 := by
  refine ⟨rfl, rfl, rfl⟩

theorem pollLoop_skip (E : BatchEnv) (d : Nat) :
    ∀ (n bnd : Nat) (s : LState),
      (∀ j, j < n → (E.statusResp d (s.k + j)).status_code = 200 ∧
        (E.statusResp d (s.k + j)).state ∉
          (["SUCCEEDED", "KILLED", "FAILED", "RATE_LIMITED"] : List String)) →
      s.t + n * E.sleepTime < E.maxTime → n < bnd →
      pollLoop E d bnd s =
        (List.replicate n (Ev.slept E.sleepTime) ++
          (pollLoop E d (bnd - n) ⟨s.t + n * E.sleepTime, s.k + n, s.failed, s.resub⟩).1,
         (pollLoop E d (bnd - n) ⟨s.t + n * E.sleepTime, s.k + n, s.failed, s.resub⟩).2) := by
  intro n
  induction n with
  | zero =>
    intro bnd s hplain htime hbnd
    simp
  | succ n ih =>
    intro bnd s hplain htime hbnd
    obtain ⟨b, rfl⟩ : ∃ b, bnd = b + 1 := ⟨bnd - 1, by omega⟩
    have h0 := hplain 0 (by omega)
    rw [Nat.add_zero] at h0
    obtain ⟨h200, hmem⟩ := h0
    have h1 : (E.statusResp d s.k).state ≠ "SUCCEEDED" := fun heq => hmem (by rw [heq]; simp)
    have h2 : (E.statusResp d s.k).state ≠ "KILLED" := fun heq => hmem (by rw [heq]; simp)
    have h3 : (E.statusResp d s.k).state ≠ "FAILED" := fun heq => hmem (by rw [heq]; simp)
    have h4 : (E.statusResp d s.k).state ≠ "RATE_LIMITED" := fun heq => hmem (by rw [heq]; simp)
    have hmul : (n + 1) * E.sleepTime = E.sleepTime + n * E.sleepTime := by
      rw [Nat.succ_mul]; omega
    have ht : s.t < E.maxTime := by omega
    have hcs : check_job_status (E.statusResp d s.k) =
        Except.ok (E.statusResp d s.k).state := by
      simp [check_job_status, h200]
    have hrec := ih b ⟨s.t + E.sleepTime, s.k + 1, s.failed, s.resub⟩
      (fun j hj => by
        have h := hplain (j + 1) (by omega)
        rwa [show s.k + (j + 1) = s.k + 1 + j by omega] at h)
      (by
        show s.t + E.sleepTime + n * E.sleepTime < E.maxTime
        omega)
      (by omega)
    have e1 : s.t + (n + 1) * E.sleepTime = s.t + E.sleepTime + n * E.sleepTime := by omega
    have e2 : s.k + (n + 1) = s.k + 1 + n := by omega
    have e3 : b + 1 - (n + 1) = b - n := by omega
    rw [e1, e2, e3, List.replicate_succ, List.cons_append]
    simp only [pollLoop, if_pos ht, hcs, if_neg h1,
      if_neg (show ¬((E.statusResp d s.k).state = "KILLED" ∨
        (E.statusResp d s.k).state = "FAILED") by rintro (h | h) <;> simp_all),
      if_neg h4]
    rw [hrec]

theorem download_error_events (fs : FS) (E : DlEnv) (d : Nat) (e : String)
    (h : (download_and_process_job_results fs E d).2.2 = Except.error e) :
    (download_and_process_job_results fs E d).2.1 = [] := by
  by_cases h200 : E.status_code = 200
  · by_cases hR : E.hasReadings
    · cases hc : E.copy with
      | ok => simp [download_and_process_job_results, h200, hR, hc] at h
      | fail b => simp [download_and_process_job_results, h200, hR, hc]
    · simp [download_and_process_job_results, h200, hR]
  · simp [download_and_process_job_results, h200] at h

/-- Claim C3 (amended): the fatal path exists only for exceptions raised by
materialization.  If the job for date d is submitted successfully, reaches
SUCCEEDED at poll k (after k non-terminal polls, within the timeout), and
the subsequent download-and-process call raises (missing Readings.csv entry
or failed conversion), then the error is re-raised as the result of the
batch, the watermark is not advanced for d (no watermark write occurs), and
no date after d is attempted (the trace ends with the polls of date d; no
later started event exists).  In contrast (see the counterexample) a non-200
download response is swallowed and the batch continues. -/
theorem C3_materialize_raise_aborts (E : BatchEnv) (d : Nat) (rest : List Nat) (k : Nat)
    (sls : List Nat) (jid : String) (e0 : String)
    (hsl : 1 ≤ E.sleepTime)
    (hsub : submit_job (E.submitResp d 0) 3 = (sls, Except.ok jid)) (hjid : jid ≠ "")
    (hplain : ∀ j, j < k → (E.statusResp d j).status_code = 200 ∧
      (E.statusResp d j).state ∉
        (["SUCCEEDED", "KILLED", "FAILED", "RATE_LIMITED"] : List String))
    (hk200 : (E.statusResp d k).status_code = 200)
    (hkst : (E.statusResp d k).state = "SUCCEEDED")
    (htime : k * E.sleepTime < E.maxTime)
    (hdl : (download_and_process_job_results ⟨false, false, false⟩ (E.dl d) d).2.2 =
      Except.error e0) :
    runDates E (d :: rest) =
      (Ev.started d :: (sls.map Ev.slept ++ List.replicate k (Ev.slept E.sleepTime)),
       Except.error e0) ∧
    (∀ d2, Ev.started d2 ∉ sls.map Ev.slept ++ List.replicate k (Ev.slept E.sleepTime)) ∧
    (∀ d2, Ev.wmWrite d2 ∉ sls.map Ev.slept ++ List.replicate k (Ev.slept E.sleepTime)) := by
  have hk1 : k < E.maxTime + 1 := by
    have : k * 1 ≤ k * E.sleepTime := Nat.mul_le_mul_left k hsl
    omega
  have hskip := pollLoop_skip E d k (E.maxTime + 1) ⟨0, 0, 0, 0⟩
    (fun j hj => by simpa using hplain j hj)
    (by simpa using htime) hk1
  have hcs : check_job_status (E.statusResp d k) = Except.ok "SUCCEEDED" := by
    simp [check_job_status, hk200, hkst]
  have hevs := download_error_events ⟨false, false, false⟩ (E.dl d) d e0 hdl
  obtain ⟨b, hb⟩ : ∃ b, E.maxTime + 1 - k = b + 1 := ⟨E.maxTime - k, by omega⟩
  have htk : k * E.sleepTime < E.maxTime := htime
  have hinner : pollLoop E d (E.maxTime + 1 - k) ⟨0 + k * E.sleepTime, 0 + k, 0, 0⟩ =
      ((download_and_process_job_results ⟨false, false, false⟩ (E.dl d) d).2.1,
       DOutcome.err e0) := by
    rw [hb]
    have ht : (0 + k * E.sleepTime) < E.maxTime := by simpa using htk
    rcases hdd : download_and_process_job_results ⟨false, false, false⟩ (E.dl d) d
      with ⟨fs2, evs, res⟩
    rw [hdd] at hdl
    simp only at hdl
    subst hdl
    simp only [pollLoop, if_pos ht, Nat.zero_add, hcs, if_pos rfl, hdd]
    simp [htk]
  have hrd : runDate E d =
      (sls.map Ev.slept ++ List.replicate k (Ev.slept E.sleepTime), DOutcome.err e0) := by
    unfold runDate
    rw [hsub]
    simp only [hjid, if_neg (by exact hjid)]
    rw [hskip, hinner, hevs]
    simp
  refine ⟨?_, ?_, ?_⟩
  · unfold runDates
    rw [hrd]
  · intro d2
    simp [List.mem_append, List.mem_map, List.eq_replicate_iff]
  · intro d2
    simp [List.mem_append, List.mem_map, List.eq_replicate_iff]

/-! ### Claim C1: watermark monotonicity and materialize-before-advance -/

theorem wmValues_nil : wmValues [] = [] := rfl

theorem wmValues_append (a b : List Ev) : wmValues (a ++ b) = wmValues a ++ wmValues b :=
  List.filterMap_append a b _

theorem wmValues_cons_slept (n : Nat) (tr : List Ev) :
    wmValues (Ev.slept n :: tr) = wmValues tr := rfl

theorem wmValues_cons_started (n : Nat) (tr : List Ev) :
    wmValues (Ev.started n :: tr) = wmValues tr := rfl

theorem wmValues_cons_resubmitted (tr : List Ev) :
    wmValues (Ev.resubmitted :: tr) = wmValues tr := rfl

theorem wmValues_cons_materialized (n : Nat) (tr : List Ev) :
    wmValues (Ev.materialized n :: tr) = wmValues tr := rfl

theorem wmValues_cons_wmWrite (n : Nat) (tr : List Ev) :
    wmValues (Ev.wmWrite n :: tr) = n :: wmValues tr := rfl

theorem wmValues_map_slept (l : List Nat) : wmValues (l.map Ev.slept) = [] := by
  induction l with
  | nil => rfl
  | cons x xs ih => simpa [wmValues_cons_slept] using ih

theorem mem_wmValues (d : Nat) (tr : List Ev) :
    d ∈ wmValues tr ↔ Ev.wmWrite d ∈ tr := by
  unfold wmValues
  rw [List.mem_filterMap]
  constructor
  · rintro ⟨e, he, hfe⟩
    cases e <;> simp_all
  · intro h
    exact ⟨Ev.wmWrite d, h, rfl⟩

theorem download_wm (fs : FS) (E : DlEnv) (d : Nat) :
    wmValues (download_and_process_job_results fs E d).2.1 = [] := by
  by_cases h200 : E.status_code = 200
  · by_cases hR : E.hasReadings
    · cases hc : E.copy with
      | ok => simp [download_and_process_job_results, h200, hR, hc, wmValues]
      | fail b => simp [download_and_process_job_results, h200, hR, hc, wmValues]
    · simp [download_and_process_job_results, h200, hR, wmValues]
  · simp [download_and_process_job_results, h200, wmValues]

theorem download_ok_evs (fs : FS) (E : DlEnv) (d : Nat) (x : Bool)
    (h : (download_and_process_job_results fs E d).2.2 = Except.ok (some x)) :
    (download_and_process_job_results fs E d).2.1 = [Ev.materialized d] := by
  by_cases h200 : E.status_code = 200
  · by_cases hR : E.hasReadings
    · cases hc : E.copy with
      | ok => simp [download_and_process_job_results, h200, hR, hc]
      | fail b => simp [download_and_process_job_results, h200, hR, hc] at h
    · simp [download_and_process_job_results, h200, hR] at h
  · simp [download_and_process_job_results, h200] at h

theorem beforeWrite_nil (d : Nat) : beforeWrite d [] = [] := rfl

theorem beforeWrite_append_of_no_write (d : Nat) (a b : List Ev)
    (h : Ev.wmWrite d ∉ a) : beforeWrite d (a ++ b) = a ++ beforeWrite d b := by
  unfold beforeWrite
  rw [List.takeWhile_append_of_pos]
  intro x hx
  simp only [Bool.not_eq_eq_eq_not, Bool.not_true, beq_eq_false_iff_ne, ne_eq]
  intro hxe
  exact h (hxe ▸ hx)

theorem mem_beforeWrite_append_left (d : Nat) (x : Ev) (a b : List Ev)
    (h : x ∈ beforeWrite d a) : x ∈ beforeWrite d (a ++ b) := by
  induction a with
  | nil => simp [beforeWrite] at h
  | cons e a ih =>
    unfold beforeWrite at *
    rw [List.cons_append, List.takeWhile_cons]
    rw [List.takeWhile_cons] at h
    by_cases hpe : (!(e == Ev.wmWrite d)) = true
    · rw [if_pos hpe] at h
      rw [if_pos hpe]
      rcases List.mem_cons.mp h with h | h
      · exact List.mem_cons.mpr (Or.inl h)
      · exact List.mem_cons.mpr (Or.inr (ih h))
    · rw [if_neg hpe] at h
      exact absurd h (List.not_mem_nil x)

/-- Every write of d to the watermark file is strictly preceded by the
materialization of the result file for that same date d. -/
def Prec (tr : List Ev) : Prop :=
  ∀ d, Ev.wmWrite d ∈ tr → Ev.materialized d ∈ beforeWrite d tr

theorem prec_nil : Prec [] := by
  intro d h
  exact absurd h (List.not_mem_nil _)

theorem prec_of_no_writes (tr : List Ev) (h : ∀ d, Ev.wmWrite d ∉ tr) : Prec tr := by
  intro d hd
  exact absurd hd (h d)

theorem prec_append (a b : List Ev) (ha : Prec a) (hb : Prec b)
    (hdisj : ∀ d, Ev.wmWrite d ∈ b → Ev.wmWrite d ∉ a) : Prec (a ++ b) := by
  intro d hd
  rcases List.mem_append.mp hd with h | h
  · exact mem_beforeWrite_append_left d _ a b (ha d h)
  · rw [beforeWrite_append_of_no_write d a b (hdisj d h)]
    exact List.mem_append.mpr (Or.inr (hb d h))

theorem prec_append_of_no_writes (a b : List Ev) (ha : ∀ d, Ev.wmWrite d ∉ a)
    (hb : Prec b) : Prec (a ++ b) :=
  prec_append a b (prec_of_no_writes a ha) hb (fun d _ => ha d)

theorem prec_cons_of_no_write (e : Ev) (tr : List Ev) (he : ∀ d, e ≠ Ev.wmWrite d)
    (h : Prec tr) : Prec (e :: tr) := by
  have : Prec ([e] ++ tr) := by
    refine prec_append_of_no_writes [e] tr ?_ h
    intro d hd
    rcases List.mem_singleton.mp hd with h2
    exact he d h2.symm
  simpa using this

theorem no_writes_of_wm_nil (tr : List Ev) (h : wmValues tr = []) :
    ∀ d, Ev.wmWrite d ∉ tr := by
  intro d hd
  have := (mem_wmValues d tr).mpr hd
  rw [h] at this
  exact absurd this (List.not_mem_nil d)

theorem pollLoop_wm (E : BatchEnv) (d : Nat) :
    ∀ bnd s, List.Sublist (wmValues (pollLoop E d bnd s).1) [d] := by
  intro bnd
  induction bnd with
  | zero =>
    intro s
    by_cases ht : s.t < E.maxTime <;> simp [pollLoop, ht, wmValues_nil]
  | succ b ih =>
    intro s
    by_cases ht : s.t < E.maxTime
    · cases hcs : check_job_status (E.statusResp d s.k) with
      | error e => simp [pollLoop, ht, hcs, wmValues_nil]
      | ok st =>
        by_cases h1 : st = "SUCCEEDED"
        · rcases hdd : download_and_process_job_results ⟨false, false, false⟩ (E.dl d) d
            with ⟨fs2, evs, res⟩
          have hw : wmValues evs = [] := by
            have h := download_wm ⟨false, false, false⟩ (E.dl d) d
            rw [hdd] at h
            exact h
          cases res with
          | error e =>
            simp [pollLoop, ht, hcs, h1, hdd, hw]
          | ok o =>
            cases o with
            | none => simp [pollLoop, ht, hcs, h1, hdd, hw]
            | some x =>
              simp [pollLoop, ht, hcs, h1, hdd, wmValues_append, hw, wmValues_cons_wmWrite,
                wmValues_nil]
        · by_cases h2 : st = "KILLED" ∨ st = "FAILED"
          · by_cases h3 : s.failed + 1 ≤ 1
            · rcases hsj : submit_job (E.submitResp d (s.resub + 1)) 3 with ⟨sls2, r2⟩
              cases r2 with
              | error t2 => simp [pollLoop, ht, hcs, h1, h2, h3, hsj, wmValues_map_slept]
              | ok jid2 =>
                have hrec := ih ⟨s.t + sls2.sum + E.sleepTime, s.k + 1, s.failed + 1, s.resub + 1⟩
                simp [pollLoop, ht, hcs, h1, h2, h3, hsj, wmValues_append, wmValues_map_slept,
                  wmValues_cons_resubmitted, wmValues_cons_slept, hrec]
            · simp [pollLoop, ht, hcs, h1, h2, h3, wmValues_nil]
          · by_cases h4 : st = "RATE_LIMITED"
            · have hrec := ih ⟨s.t + 300 + E.sleepTime, s.k + 1, s.failed, s.resub⟩
              simp [pollLoop, ht, hcs, h1, h2, h4, wmValues_cons_slept, hrec]
            · have hrec := ih ⟨s.t + E.sleepTime, s.k + 1, s.failed, s.resub⟩
              simp [pollLoop, ht, hcs, h1, h2, h4, wmValues_cons_slept, hrec]
    · simp [pollLoop, ht, wmValues_nil]

theorem pollLoop_prec (E : BatchEnv) (d : Nat) :
    ∀ bnd s, Prec (pollLoop E d bnd s).1 := by
  intro bnd
  induction bnd with
  | zero =>
    intro s
    by_cases ht : s.t < E.maxTime <;> simp [pollLoop, ht] <;> exact prec_nil
  | succ b ih =>
    intro s
    by_cases ht : s.t < E.maxTime
    · cases hcs : check_job_status (E.statusResp d s.k) with
      | error e =>
        simp [pollLoop, ht, hcs]
        exact prec_nil
      | ok st =>
        by_cases h1 : st = "SUCCEEDED"
        · rcases hdd : download_and_process_job_results ⟨false, false, false⟩ (E.dl d) d
            with ⟨fs2, evs, res⟩
          have hw : wmValues evs = [] := by
            have h := download_wm ⟨false, false, false⟩ (E.dl d) d
            rw [hdd] at h
            exact h
          cases res with
          | error e =>
            simp [pollLoop, ht, hcs, h1, hdd]
            exact prec_of_no_writes evs (no_writes_of_wm_nil evs hw)
          | ok o =>
            cases o with
            | none =>
              simp [pollLoop, ht, hcs, h1, hdd]
              exact prec_of_no_writes evs (no_writes_of_wm_nil evs hw)
            | some x =>
              have hevs : evs = [Ev.materialized d] := by
                have h := download_ok_evs ⟨false, false, false⟩ (E.dl d) d x (by rw [hdd])
                rw [hdd] at h
                exact h
              simp only [pollLoop, if_pos ht, hcs, h1, if_pos rfl, hdd, hevs]
              intro d2 hd2
              have : d2 = d := by
                rcases List.mem_cons.mp hd2 with h | h
                · exact absurd h (by simp)
                · rcases List.mem_cons.mp h with h | h
                  · exact (Ev.wmWrite.injEq d2 d).mp h
                  · exact absurd h (List.not_mem_nil _)
              subst this
              simp [beforeWrite, List.takeWhile_cons]
        · by_cases h2 : st = "KILLED" ∨ st = "FAILED"
          · by_cases h3 : s.failed + 1 ≤ 1
            · rcases hsj : submit_job (E.submitResp d (s.resub + 1)) 3 with ⟨sls2, r2⟩
              cases r2 with
              | error t2 =>
                simp [pollLoop, ht, hcs, h1, h2, h3, hsj]
                exact prec_of_no_writes _ (no_writes_of_wm_nil _ (wmValues_map_slept sls2))
              | ok jid2 =>
                have hrec := ih ⟨s.t + sls2.sum + E.sleepTime, s.k + 1, s.failed + 1, s.resub + 1⟩
                simp only [pollLoop, if_pos ht, hcs, h1, h2, h3, hsj, if_neg h1, if_pos h2,
                  if_pos h3]
                refine prec_append_of_no_writes _ _
                  (no_writes_of_wm_nil _ (wmValues_map_slept sls2)) ?_
                refine prec_cons_of_no_write _ _ (fun d2 => by simp) ?_
                exact prec_cons_of_no_write _ _ (fun d2 => by simp) hrec
            · simp [pollLoop, ht, hcs, h1, h2, h3]
              exact prec_nil
          · by_cases h4 : st = "RATE_LIMITED"
            · have hrec := ih ⟨s.t + 300 + E.sleepTime, s.k + 1, s.failed, s.resub⟩
              simp only [pollLoop, if_pos ht, hcs, if_neg h1, if_neg h2, if_pos h4]
              refine prec_cons_of_no_write _ _ (fun d2 => by simp) ?_
              exact prec_cons_of_no_write _ _ (fun d2 => by simp) hrec
            · have hrec := ih ⟨s.t + E.sleepTime, s.k + 1, s.failed, s.resub⟩
              simp only [pollLoop, if_pos ht, hcs, if_neg h1, if_neg h2, if_neg h4]
              exact prec_cons_of_no_write _ _ (fun d2 => by simp) hrec
    · simp [pollLoop, ht]
      exact prec_nil

theorem runDate_wm (E : BatchEnv) (d : Nat) :
    List.Sublist (wmValues (runDate E d).1) [d] := by
  unfold runDate
  rcases hsj : submit_job (E.submitResp d 0) 3 with ⟨sls, r⟩
  cases r with
  | error t2 => simp [wmValues_map_slept]
  | ok jid =>
    by_cases hj : jid = ""
    · simp [hj, wmValues_map_slept]
    · have h := pollLoop_wm E d (E.maxTime + 1) ⟨0, 0, 0, 0⟩
      simp [hj, wmValues_append, wmValues_map_slept, h]

theorem runDate_prec (E : BatchEnv) (d : Nat) : Prec (runDate E d).1 := by
  unfold runDate
  rcases hsj : submit_job (E.submitResp d 0) 3 with ⟨sls, r⟩
  cases r with
  | error t2 =>
    exact prec_of_no_writes _ (no_writes_of_wm_nil _ (wmValues_map_slept sls))
  | ok jid =>
    by_cases hj : jid = ""
    · simp only [hj, if_pos rfl]
      exact prec_of_no_writes _ (no_writes_of_wm_nil _ (wmValues_map_slept sls))
    · simp only [hj, if_neg hj]
      exact prec_append_of_no_writes _ _
        (no_writes_of_wm_nil _ (wmValues_map_slept sls))
        (pollLoop_prec E d (E.maxTime + 1) ⟨0, 0, 0, 0⟩)

theorem runDates_wm (E : BatchEnv) :
    ∀ ds, List.Sublist (wmValues (runDates E ds).1) ds := by
  intro ds
  induction ds with
  | nil => simp [runDates, wmValues_nil]
  | cons d rest ih =>
    rcases hr : runDate E d with ⟨tr, out⟩
    have htr : List.Sublist (wmValues tr) [d] := by
      have h := runDate_wm E d
      rw [hr] at h
      exact h
    cases out with
    | err e =>
      simp only [runDates, hr, wmValues_cons_started]
      exact htr.trans (List.Sublist.cons₂ d (List.nil_sublist rest))
    | done =>
      simp only [runDates, hr, wmValues_cons_started, wmValues_append]
      have : List.Sublist (wmValues tr ++ wmValues (runDates E rest).1) ([d] ++ rest) :=
        List.Sublist.append htr ih
      simpa using this

theorem runDates_prec (E : BatchEnv) :
    ∀ ds, ds.Nodup → Prec (runDates E ds).1 := by
  intro ds
  induction ds with
  | nil =>
    intro _
    simpa [runDates] using prec_nil
  | cons d rest ih =>
    intro hnd
    rw [List.nodup_cons] at hnd
    obtain ⟨hdr, hrest⟩ := hnd
    rcases hr : runDate E d with ⟨tr, out⟩
    have htr_prec : Prec tr := by
      have h := runDate_prec E d
      rw [hr] at h
      exact h
    have htr_wm : List.Sublist (wmValues tr) [d] := by
      have h := runDate_wm E d
      rw [hr] at h
      exact h
    cases out with
    | err e =>
      simp only [runDates, hr]
      exact prec_cons_of_no_write _ _ (fun d2 => by simp) htr_prec
    | done =>
      simp only [runDates, hr]
      refine prec_cons_of_no_write _ _ (fun d2 => by simp) ?_
      refine prec_append tr _ htr_prec (ih hrest) ?_
      intro d2 hb ha
      have ha2 : d2 = d := by
        have := htr_wm.subset ((mem_wmValues d2 tr).mpr ha)
        simpa using this
      have hb2 : d2 ∈ rest := by
        have h := runDates_wm E rest
        exact h.subset ((mem_wmValues d2 _).mpr hb)
      rw [ha2] at hb2
      exact hdr hb2

/-- Claim C1: in every batch run starting from watermark W, the sequence of
values successively persisted to the watermark file is monotonically
non-decreasing starting from W; every value written is one of the pending
dates; and the watermark is written to a date d only strictly after the
result file for that exact date d has been materialized (every occurrence of
a watermark write of d is preceded in the trace by the materialization of
d).  Consequently a run killed at any point after a SUCCEEDED poll but
before materialization of d has not written d (the trace prefix up to that
point contains no materialization of d, hence no write of d), so a rerun
starts from an unchanged watermark and reprocesses d. -/
theorem C1_watermark (E : BatchEnv) (W y : Nat) :
    List.Sorted (· ≤ ·) (W :: wmValues (daily_download E W y).1) ∧
    List.Sublist (wmValues (daily_download E W y).1) (get_dates W y) ∧
    (∀ d, Ev.wmWrite d ∈ (daily_download E W y).1 →
      Ev.materialized d ∈ beforeWrite d (daily_download E W y).1) := by
  have hsub : List.Sublist (wmValues (daily_download E W y).1) (get_dates W y) :=
    runDates_wm E _
  have hnd : (get_dates W y).Nodup := by
    rw [get_dates_eq_range']
    exact List.nodup_range' _ _
  have hprec := runDates_prec E (get_dates W y) hnd
  refine ⟨?_, hsub, hprec⟩
  rw [List.sorted_cons]
  constructor
  · intro b hb
    have hbd : b ∈ get_dates W y := hsub.subset hb
    rw [get_dates_eq_range', List.mem_range'_1] at hbd
    omega
  · have hplt : List.Pairwise (· < ·) (get_dates W y) := by
      rw [get_dates_eq_range']
      exact List.pairwise_lt_range' _ _ 1 (by simp)
    exact (hplt.sublist hsub).imp (fun h => Nat.le_of_lt h)

/-- Batch environment in which the one pending job immediately succeeds and
its results materialize. -/
def c1env : BatchEnv where
  sleepTime := 1
  maxTime := 10
  statusResp := fun _ _ => ⟨200, "", "SUCCEEDED", ""⟩
  submitResp := fun _ _ _ => ⟨200, "", "", "j"⟩
  dl := fun _ => ⟨200, "", true, CopyOutcome.ok⟩

/-- Witness for C1_watermark: in a concrete successful run the write of the
watermark for date 0 is preceded by the materialization of date 0. -/
theorem C1_watermark_witness :
    Ev.materialized 0 ∈ beforeWrite 0 (daily_download c1env 0 0).1 :=
  (C1_watermark c1env 0 0).2.2 0 (by decide)

/-- Batch environment whose jobs immediately reach SUCCEEDED but whose result
archive lacks the Readings.csv entry, so materialization raises. -/
def c3wenv : BatchEnv where
  sleepTime := 60
  maxTime := 100
  statusResp := fun _ _ => ⟨200, "", "SUCCEEDED", ""⟩
  submitResp := fun _ _ _ => ⟨200, "", "", "j"⟩
  dl := fun _ => ⟨200, "", false, CopyOutcome.ok⟩

/-- Witness for C3_materialize_raise_aborts: with two pending dates 0 and 9
and a raising materialization on date 0, the batch aborts on date 0 with the
KeyError re-raised and date 9 is never started. -/
theorem C3_materialize_raise_aborts_witness :
    runDates c3wenv (0 :: [9]) =
      (Ev.started 0 ::
        (([0] : List Nat).map Ev.slept ++ List.replicate 0 (Ev.slept c3wenv.sleepTime)),
       Except.error "KeyError: Readings.csv") :=
  (C3_materialize_raise_aborts c3wenv 0 [9] 0 [0] "j" "KeyError: Readings.csv"
    (by decide) rfl (by decide) (fun j hj => absurd hj (by omega)) rfl rfl (by decide) rfl).1
